import Mathlib

/-
Verification of the registry and import-interception subsystem of jurigged
(src/jurigged/register.py), as a shallow embedding in Lean 4.

The embedding mirrors the Python source:
  * `Registry` state (precache dict, cache dict, event channels) becomes an
    explicit `RegState` record threaded through every operation;
  * the ambient environment (the filesystem read performed by `open`/`read`/
    `getmtime`, the `sys.modules` table, and the external `CodeFile.discover`
    collaborator) becomes an explicit `Env` record;
  * fallible code (the file read inside `prepare`) returns `Except`;
  * the `ImportSniffer` becomes a pure transition function on a
    `SnifferState`, with the outcome of `importlib.util.find_spec` and of the
    reporting callback supplied by a `SnifferEnv`.

Python dictionaries are modelled as association lists with `List.lookup`
(insertion prepends a binding for a key checked absent, so lookup agrees with
dict semantics on every reachable state).
-/

namespace Jurigged

/-- Abstract identifier for a structural definition held in a CodeFile's
`defnmap` (the collaborator's line-to-definition mapping). -/
abbrev Defn := Nat

/-- A loaded Python module as seen through `getattr(module, "__file__", None)`
and `getattr(module, "__name__", None)`. -/
structure Module where
  name : Option String
  file : Option String
deriving DecidableEq

/-- The per-file metadata entity (`CodeFile`), modelled through its consumed
contract: built from a filename and snapshot source, `discover` fills its
line-to-definition mapping. The `id` field records construction order so that
referential identity ("the same object, not a freshly rebuilt one") is
observable in the embedding. -/
structure CodeFile where
  id : Nat
  filename : String
  source : String
  defnmap : List (Nat × Defn)
deriving DecidableEq

/-- The mutable state of a `Registry`: the precache table
(filename ↦ (module_name, source text, mtime)), the cache table
(filename ↦ CodeFile), the emission histories of the two event channels
(`precache_activity` and `activity`), the number of completed file reads,
and the next fresh CodeFile identity. -/
structure RegState where
  precache : List (String × (String × String × Nat))
  cache : List (String × CodeFile)
  precacheEvents : List (String × String)
  activityEvents : List (String × String)
  reads : Nat
  nextId : Nat
deriving DecidableEq

/-- The empty registry created by `Registry.__init__`. -/
def initState : RegState :=
  { precache := [], cache := [], precacheEvents := [], activityEvents := []
    reads := 0, nextId := 0 }

/-- The ambient environment: `fs p` is the result of opening and reading file
`p` (`none` models an I/O failure raising), `modules` is `sys.modules`, and
`discover` is the external collaborator that computes a CodeFile's
line-to-definition mapping from the filename, the snapshot source and the
live module. -/
structure Env where
  fs : String → Option (String × Nat)
  modules : List (String × Module)
  discover : String → String → Module → List (Nat × Defn)

/-- `Registry.prepare(module_name, filename)`. If the filename is absent from
both tables it reads the file (an I/O failure propagates as `.error`, leaving
the state unmodified, exactly as a raised exception would before the dict
assignment), stores the precache entry and emits one precache event.
Otherwise it is a no-op. -/
def prepare (env : Env) (module_name filename : String) (s : RegState) :
    Except String RegState :=
  if (s.precache.lookup filename).isNone && (s.cache.lookup filename).isNone then
    match env.fs filename with
    | none => .error ("open failed: " ++ filename)
    | some (text, mtime) =>
        .ok { s with
          precache := (filename, (module_name, text, mtime)) :: s.precache
          precacheEvents := s.precacheEvents ++ [(module_name, filename)]
          reads := s.reads + 1 }
  else
    .ok s

/-- `Registry.get(filename)`. Cache hit returns the cached CodeFile; a
precache hit whose module is still loaded builds the CodeFile, caches it
(without removing the precache entry, as in the source) and returns it; a
precache hit whose module is gone, or a miss in both tables, returns `none`.
-/
def get (env : Env) (filename : String) (s : RegState) :
    RegState × Option CodeFile :=
  match s.cache.lookup filename with
  | some cf => (s, some cf)
  | none =>
    match s.precache.lookup filename with
    | none => (s, none)
    | some (module_name, cached_source, _mtime) =>
      match env.modules.lookup module_name with
      | none => (s, none)
      | some m =>
        let cf : CodeFile :=
          { id := s.nextId, filename := filename, source := cached_source
            defnmap := env.discover filename cached_source m }
        ({ s with cache := (filename, cf) :: s.cache, nextId := s.nextId + 1 },
          some cf)

/-- `Registry.find(filename, lineno)`: delegate to `get`, then look up the
line in the CodeFile's `defnmap` (dict `.get` with default `None`). -/
def find (env : Env) (filename : String) (lineno : Nat) (s : RegState) :
    RegState × (Option CodeFile × Option Defn) :=
  match get env filename s with
  | (s1, none) => (s1, (none, none))
  | (s1, some cf) => (s1, (some cf, cf.defnmap.lookup lineno))

/-- The possible arguments to `Registry.find_function`, classified by the
concrete Python type checked by `isinstance(fn, FunctionType)`. A plain
function carries its `__module__`, `__code__.co_filename` and
`__code__.co_firstlineno`; the other constructors are callables of other
types (builtins, classes, bound methods, instances with `__call__`) and a
non-callable value. -/
inductive PyValue where
  | function (module filename : String) (firstlineno : Nat)
  | builtinFunction
  | classObj
  | boundMethod
  | callableInstance
  | nonCallable
deriving DecidableEq

/-- `isinstance(x, FunctionType)`: true exactly for plain function objects. -/
def isFunctionType : PyValue → Bool
  | .function _ _ _ => true
  | _ => false

/-- `callable(x)`: everything here except a non-callable value. -/
def isCallable : PyValue → Bool
  | .nonCallable => false
  | _ => true

/-- `Registry.find_function(fn)`: return `(None, None)` unless `fn` is a
plain function; otherwise `prepare` its code object's file (an I/O error
propagates) and delegate to `find`. -/
def find_function (env : Env) (fn : PyValue) (s : RegState) :
    Except String (RegState × (Option CodeFile × Option Defn)) :=
  match fn with
  | .function module filename firstlineno =>
    match prepare env module filename s with
    | .error e => .error e
    | .ok s1 => .ok (find env filename firstlineno s1)
  | _ => .ok (s, (none, none))

/-- The `prep` closure built inside `Registry.auto_register`: call `prepare`
only when the module has both a file and a name and the file passes the
filter. -/
def prep (env : Env) (flt : String → Bool)
    (module_name filename : Option String) (s : RegState) :
    Except String RegState :=
  match filename, module_name with
  | some f, some m => if flt f then prepare env m f s else .ok s
  | _, _ => .ok s

/-- The scan loop of `Registry.auto_register` over `sys.modules.items()`:
mutations made before a raising `prepare` survive, as they do in Python,
so the loop returns the last good state together with the error, if any. -/
def auto_register_loop (env : Env) (flt : String → Bool) :
    List (String × Module) → RegState → RegState × Option String
  | [], s => (s, none)
  | (_, m) :: rest, s =>
    match prep env flt m.name m.file s with
    | .ok s1 => auto_register_loop env flt rest s1
    | .error e => (s, some e)

/-- `Registry.auto_register(filter)` restricted to its registry-state effect:
scan all loaded modules (installing the sniffer touches only
`sys.meta_path`, modelled separately). -/
def auto_register (env : Env) (flt : String → Bool) (s : RegState) :
    RegState × Option String :=
  auto_register_loop env flt env.modules s

/-- One public Registry operation, for stating invariants over arbitrary
operation sequences. -/
inductive Op where
  | prepareOp (m f : String)
  | getOp (f : String)
  | findOp (f : String) (l : Nat)
  | findFunctionOp (v : PyValue)
  | autoRegisterOp (flt : String → Bool)

/-- Run one operation: an exception (`.error`) leaves the registry state as
it was at the raise point, matching Python semantics. -/
def opStep (env : Env) (s : RegState) : Op → RegState
  | .prepareOp m f =>
    match prepare env m f s with
    | .ok s1 => s1
    | .error _ => s
  | .getOp f => (get env f s).1
  | .findOp f l => (find env f l s).1
  | .findFunctionOp v =>
    match find_function env v s with
    | .ok (s1, _) => s1
    | .error _ => s
  | .autoRegisterOp flt => (auto_register env flt s).1

/-- Run a sequence of operations, each with its own environment (the
filesystem and `sys.modules` may change between calls). -/
def runOps : List (Env × Op) → RegState → RegState
  | [], s => s
  | (env, op) :: rest, s => runOps rest (opStep env s op)

/-- The result of `importlib.util.find_spec` as inspected by the sniffer:
whether the loader is a `SourceFileLoader`, plus `name` and `origin`. -/
structure MSpec where
  loaderIsSourceFileLoader : Bool
  name : Option String
  origin : Option String
deriving DecidableEq

/-- Environment of one `find_module` invocation: the spec the nested
`find_spec` call would return, and whether the reporting callback raises
(`some msg`) or succeeds (`none`). -/
structure SnifferEnv where
  foundSpec : Option MSpec
  reportError : Option String
deriving DecidableEq

/-- State of an `ImportSniffer`: the reentrancy flag `working`, the history
of reporting-callback invocations, the logged error messages, and how many
nested `find_spec` resolutions it has performed. -/
structure SnifferState where
  working : Bool
  reports : List (String × String)
  logged : List String
  resolutions : Nat
deriving DecidableEq

/-- `ImportSniffer.find_module(spec, path)`: decline immediately when
`working` is set; otherwise set the flag, resolve via `find_spec`, report a
source-backed spec with a name and an origin (logging, not propagating, a
callback exception), clear the flag, and in every case return `None`. -/
def find_module (env : SnifferEnv) (s : SnifferState) :
    SnifferState × Option Unit :=
  if s.working then (s, none)
  else
    let s2 : SnifferState :=
      { s with working := true, resolutions := s.resolutions + 1 }
    match env.foundSpec with
    | none => ({ s2 with working := false }, none)
    | some m =>
      match m.loaderIsSourceFileLoader, m.name, m.origin with
      | true, some n, some o =>
        let s3 : SnifferState := { s2 with reports := s2.reports ++ [(n, o)] }
        let s4 : SnifferState :=
          match env.reportError with
          | none => s3
          | some _ =>
            { s3 with
              logged := s3.logged ++ ["jurigged: Error processing spec " ++ n] }
        ({ s4 with working := false }, none)
      | _, _, _ => ({ s2 with working := false }, none)

/-! ### Association-list lookup helpers -/

theorem lookup_cons {α : Type} {β : Type} [BEq α] [LawfulBEq α] (k : α) (v : β)
    (l : List (α × β)) (p : α) :
    List.lookup p ((k, v) :: l) = if p == k then some v else List.lookup p l := by
  simp only [List.lookup]
  cases h : p == k <;> simp [h]

theorem lookup_cons_ne {α : Type} {β : Type} [BEq α] [LawfulBEq α] (k : α)
    (v : β) (l : List (α × β)) (p : α) (h : p ≠ k) :
    List.lookup p ((k, v) :: l) = List.lookup p l := by
  rw [lookup_cons]
  simp [h]

/-! ### Structural lemmas about the operations -/

theorem prepare_ok_state (env : Env) (m f : String) (s s1 : RegState)
    (h : prepare env m f s = .ok s1) :
    s1.cache = s.cache ∧
    (∀ p e, s.precache.lookup p = some e → s1.precache.lookup p = some e) := by
  unfold prepare at h
  split at h
  · rename_i hcond
    split at h
    · exact absurd h (by simp)
    · rename_i text mtime hfs
      cases h
      refine ⟨rfl, ?_⟩
      intro p e hp
      have hf : s.precache.lookup f = none := by
        have := (Bool.and_eq_true _ _).mp hcond
        exact Option.isNone_iff_eq_none.mp this.1
      have hpf : p ≠ f := by
        intro hpf
        rw [hpf, hf] at hp
        exact Option.noConfusion hp
      simpa [lookup_cons_ne _ _ _ _ hpf] using hp
  · cases h
    exact ⟨rfl, fun _ _ hp => hp⟩

theorem prepare_error_state (env : Env) (m f : String) (s : RegState)
    (e : String) (h : prepare env m f s = .error e) :
    env.fs f = none ∧ e = "open failed: " ++ f ∧
    s.precache.lookup f = none ∧ s.cache.lookup f = none := by
  unfold prepare at h
  split at h
  · rename_i hcond
    have hc := (Bool.and_eq_true _ _).mp hcond
    split at h
    · rename_i hfs
      cases h
      exact ⟨hfs, rfl, Option.isNone_iff_eq_none.mp hc.1,
        Option.isNone_iff_eq_none.mp hc.2⟩
    · exact absurd h (by simp)
  · exact absurd h (by simp)

theorem get_precache_eq (env : Env) (f : String) (s : RegState) :
    ((get env f s).1).precache = s.precache := by
  unfold get
  split
  · rfl
  · split
    · rfl
    · split
      · rfl
      · rfl

theorem get_cache_preserves (env : Env) (f : String) (s : RegState)
    (p : String) (cf : CodeFile) (h : s.cache.lookup p = some cf) :
    ((get env f s).1).cache.lookup p = some cf := by
  unfold get
  split
  · exact h
  · rename_i hmiss
    split
    · exact h
    · split
      · exact h
      · have hpf : p ≠ f := by
          intro hpf
          rw [hpf, hmiss] at h
          exact Option.noConfusion h
        simpa [lookup_cons_ne _ _ _ _ hpf] using h

theorem get_cached (env : Env) (f : String) (s : RegState) (cf : CodeFile)
    (h : s.cache.lookup f = some cf) : get env f s = (s, some cf) := by
  unfold get
  rw [h]

theorem get_some_cache (env : Env) (f : String) (s : RegState) (cf : CodeFile)
    (h : (get env f s).2 = some cf) :
    ((get env f s).1).cache.lookup f = some cf := by
  unfold get at h ⊢
  split at h
  · rename_i cf0 hc
    cases h
    exact hc
  · rename_i hmiss
    split at h
    · exact absurd h (by simp)
    · split at h
      · exact absurd h (by simp)
      · cases h
        simp [lookup_cons]

theorem find_state (env : Env) (f : String) (l : Nat) (s : RegState) :
    (find env f l s).1 = (get env f s).1 := by
  unfold find
  rcases hg : get env f s with ⟨s1, r⟩
  cases r <;> simp [hg]

theorem prep_ok_state (env : Env) (flt : String → Bool)
    (n f : Option String) (s s1 : RegState) (h : prep env flt n f s = .ok s1) :
    s1.cache = s.cache ∧
    (∀ p e, s.precache.lookup p = some e → s1.precache.lookup p = some e) := by
  unfold prep at h
  split at h
  · rename_i f0 n0
    split at h
    · exact prepare_ok_state env n0 f0 s s1 h
    · cases h
      exact ⟨rfl, fun _ _ hp => hp⟩
  · cases h
    exact ⟨rfl, fun _ _ hp => hp⟩

theorem auto_register_loop_preserves (env : Env) (flt : String → Bool)
    (mods : List (String × Module)) (s : RegState) :
    (∀ p cf, s.cache.lookup p = some cf →
      ((auto_register_loop env flt mods s).1).cache.lookup p = some cf) ∧
    (∀ p e, s.precache.lookup p = some e →
      ((auto_register_loop env flt mods s).1).precache.lookup p = some e) := by
  induction mods generalizing s with
  | nil => exact ⟨fun _ _ h => h, fun _ _ h => h⟩
  | cons hd tl ih =>
    rcases hd with ⟨name, m⟩
    rcases hp : prep env flt m.name m.file s with e1 | s1
    · constructor
      · intro p cf hc
        simp only [auto_register_loop, hp]
        exact hc
      · intro p e hpre
        simp only [auto_register_loop, hp]
        exact hpre
    · constructor
      · intro p cf hc
        simp only [auto_register_loop, hp]
        exact (ih s1).1 p cf ((prep_ok_state env flt m.name m.file s s1 hp).1 ▸ hc)
      · intro p e hpre
        simp only [auto_register_loop, hp]
        exact (ih s1).2 p e
          ((prep_ok_state env flt m.name m.file s s1 hp).2 p e hpre)

theorem opStep_preserves (env : Env) (s : RegState) (op : Op) :
    (∀ p cf, s.cache.lookup p = some cf →
      (opStep env s op).cache.lookup p = some cf) ∧
    (∀ p e, s.precache.lookup p = some e →
      (opStep env s op).precache.lookup p = some e) := by
  cases op with
  | prepareOp m f =>
    rcases hp : prepare env m f s with e1 | s1
    · simp only [opStep, hp]
      exact ⟨fun _ _ h => h, fun _ _ h => h⟩
    · simp only [opStep, hp]
      exact ⟨fun p cf hc => (prepare_ok_state env m f s s1 hp).1 ▸ hc,
        (prepare_ok_state env m f s s1 hp).2⟩
  | getOp f =>
    exact ⟨fun p cf hc => get_cache_preserves env f s p cf hc,
      fun p e hp => (get_precache_eq env f s) ▸ hp⟩
  | findOp f l =>
    simp only [opStep, find_state]
    exact ⟨fun p cf hc => get_cache_preserves env f s p cf hc,
      fun p e hp => (get_precache_eq env f s) ▸ hp⟩
  | findFunctionOp v =>
    cases v with
    | function mo fi li =>
      rcases hp : prepare env mo fi s with e1 | s1
      · simp only [opStep, find_function, hp]
        exact ⟨fun _ _ h => h, fun _ _ h => h⟩
      · simp only [opStep, find_function, hp, find_state]
        exact ⟨fun p cf hc =>
            get_cache_preserves env fi s1 p cf
              ((prepare_ok_state env mo fi s s1 hp).1 ▸ hc),
          fun p e hpre => (get_precache_eq env fi s1) ▸
            (prepare_ok_state env mo fi s s1 hp).2 p e hpre⟩
    | builtinFunction => exact ⟨fun _ _ h => h, fun _ _ h => h⟩
    | classObj => exact ⟨fun _ _ h => h, fun _ _ h => h⟩
    | boundMethod => exact ⟨fun _ _ h => h, fun _ _ h => h⟩
    | callableInstance => exact ⟨fun _ _ h => h, fun _ _ h => h⟩
    | nonCallable => exact ⟨fun _ _ h => h, fun _ _ h => h⟩
  | autoRegisterOp flt =>
    exact auto_register_loop_preserves env flt env.modules s

theorem runOps_preserves (l : List (Env × Op)) (s : RegState) :
    (∀ p cf, s.cache.lookup p = some cf →
      (runOps l s).cache.lookup p = some cf) ∧
    (∀ p e, s.precache.lookup p = some e →
      (runOps l s).precache.lookup p = some e) := by
  induction l generalizing s with
  | nil => exact ⟨fun _ _ h => h, fun _ _ h => h⟩
  | cons hd tl ih =>
    rcases hd with ⟨env, op⟩
    exact ⟨fun p cf hc => (ih (opStep env s op)).1 p cf
        ((opStep_preserves env s op).1 p cf hc),
      fun p e hp => (ih (opStep env s op)).2 p e
        ((opStep_preserves env s op).2 p e hp)⟩

theorem get_stable (env : Env) (p : String) (s : RegState) (cf : CodeFile)
    (h : (get env p s).2 = some cf) (l : List (Env × Op)) (env2 : Env) :
    (get env2 p (runOps l (get env p s).1)).2 = some cf := by
  have h1 := get_some_cache env p s cf h
  have h2 := (runOps_preserves l ((get env p s).1)).1 p cf h1
  rw [get_cached env2 p _ cf h2]

/-! ### Concrete fixtures used by witnesses and counterexamples -/

/-- A loaded module used by the concrete scenarios. -/
def moduleM : Module := { name := some "m", file := some "p.py" }

/-- Concrete environment: one readable source file `p.py` owned by the loaded
module `m`; every other path fails to read. -/
def env1 : Env :=
  { fs := fun f => if f = "p.py" then some ("def f(): pass", 10) else none
    modules := [("m", moduleM)]
    discover := fun _ _ _ => [(1, 0)] }

/-- `env1` after every module has been unloaded from `sys.modules`. -/
def envUnloaded : Env :=
  { fs := env1.fs, modules := [], discover := env1.discover }

/-- Registry state after `prepare("m", "p.py")` on the empty registry. -/
def sPre : RegState := opStep env1 initState (Op.prepareOp "m" "p.py")

/-- Registry state after `prepare("m0", "p.py")` on the empty registry;
module `m0` is not loaded in `env1`. -/
def sPreStale : RegState := opStep env1 initState (Op.prepareOp "m0" "p.py")

/-- Registry state after `prepare("m", "p.py")` followed by `get("p.py")`. -/
def sPromoted : RegState := opStep env1 sPre (Op.getOp "p.py")

/-- The CodeFile that `get("p.py")` builds when promoting `sPre`'s entry. -/
def cfP : CodeFile :=
  { id := 0, filename := "p.py", source := "def f(): pass", defnmap := [(1, 0)] }

/-- A resolved spec whose loader is a `SourceFileLoader`, with a name and an
origin. -/
def specC : MSpec :=
  { loaderIsSourceFileLoader := true, name := some "c", origin := some "c.py" }

/-- Sniffer environment in which resolution finds `specC` and the reporting
callback raises. -/
def senvRaise : SnifferEnv :=
  { foundSpec := some specC, reportError := some "boom" }

/-- A sniffer outside any resolution (reentrancy flag clear). -/
def snifferIdle : SnifferState :=
  { working := false, reports := [], logged := [], resolutions := 0 }

/-- A sniffer already inside a resolution (reentrancy flag set). -/
def snifferBusy : SnifferState :=
  { working := true, reports := [], logged := [], resolutions := 0 }

/-! ### Claims -/

/-- C1, counterexample: after `prepare("m", "p.py")` followed by `get("p.py")`
(a promoting `get`), the path `"p.py"` is present in BOTH the precache table
and the cache table — `get` never removes the precache entry — refuting the
claim that a path is present in at most one of the two tables at every point
of every operation sequence. -/
theorem C1_counterexample :
    ((runOps [(env1, Op.prepareOp "m" "p.py"), (env1, Op.getOp "p.py")]
        initState).precache.lookup "p.py").isSome = true ∧
    ((runOps [(env1, Op.prepareOp "m" "p.py"), (env1, Op.getOp "p.py")]
        initState).cache.lookup "p.py").isSome = true :=
  ⟨rfl, rfl⟩

/-- C1, amended: promotion is one-way and one-time — once `get(p)` has cached
a metadata entity, every further sequence of Registry operations leaves that
exact cache entry in place, and the precache entry for `p` (which promotion
does NOT remove: after promotion `p` is in both tables) is likewise never
modified or removed. -/
theorem C1_promotion_one_way (l : List (Env × Op)) (s : RegState) (p : String)
    (cf : CodeFile) (e : String × String × Nat)
    (hc : s.cache.lookup p = some cf) (he : s.precache.lookup p = some e) :
    (runOps l s).cache.lookup p = some cf ∧
    (runOps l s).precache.lookup p = some e :=
  ⟨(runOps_preserves l s).1 p cf hc, (runOps_preserves l s).2 p e he⟩

/-- C1, witness: the amended theorem applied to the promoted state. -/
theorem C1_promotion_one_way_witness :
    (runOps [(env1, Op.findOp "p.py" 1)] sPromoted).cache.lookup "p.py" =
      some cfP ∧
    (runOps [(env1, Op.findOp "p.py" 1)] sPromoted).precache.lookup "p.py" =
      some ("m", "def f(): pass", 10) :=
  C1_promotion_one_way [(env1, Op.findOp "p.py" 1)] sPromoted "p.py" cfP
    ("m", "def f(): pass", 10) rfl rfl

/-- C2: all lookups are total over present/absent — `get` and `find` are
plain functions into option-valued results, and `find_function` can fail only
by propagating the file-read failure of the `prepare` call it delegates to
(so the argument was a plain function whose file is unreadable); for every
non-function argument it returns the absent pair. -/
theorem C2_lookups_total (env : Env) (fn : PyValue) (s : RegState) :
    (∀ e, find_function env fn s = .error e →
      ∃ m f l, fn = PyValue.function m f l ∧ prepare env m f s = .error e ∧
        env.fs f = none) ∧
    (isFunctionType fn = false →
      find_function env fn s = .ok (s, (none, none))) := by
  constructor
  · intro e he
    cases fn with
    | function m f l =>
      refine ⟨m, f, l, rfl, ?_, ?_⟩
      · rcases hp : prepare env m f s with e1 | s1
        · simp only [find_function, hp] at he
          rw [Except.error.injEq] at he
          rw [he]
        · simp [find_function, hp] at he
      · rcases hp : prepare env m f s with e1 | s1
        · have h3 := prepare_error_state env m f s e1 hp
          simp only [find_function, hp] at he
          rw [Except.error.injEq] at he
          exact h3.1
        · simp [find_function, hp] at he
    | builtinFunction => simp [find_function] at he
    | classObj => simp [find_function] at he
    | boundMethod => simp [find_function] at he
    | callableInstance => simp [find_function] at he
    | nonCallable => simp [find_function] at he
  · intro h
    cases fn with
    | function m f l => simp [isFunctionType] at h
    | builtinFunction => rfl
    | classObj => rfl
    | boundMethod => rfl
    | callableInstance => rfl
    | nonCallable => rfl

/-- C2, witness: the theorem applied to a bound method — a callable that is
not a plain function — on the empty registry. -/
theorem C2_lookups_total_witness :
    find_function env1 PyValue.boundMethod initState =
      .ok (initState, (none, none)) :=
  (C2_lookups_total env1 PyValue.boundMethod initState).2 rfl

/-- C3: `find_module` always returns no opinion (`none`), never changes the
observable value of the reentrancy flag across a full invocation (so a
top-level call entered with the flag clear returns with it clear), and a
raising reporting callback is caught and logged — the log gains exactly the
error line, and the call still returns `none`. -/
theorem C3_find_module_transparent (env : SnifferEnv) (s : SnifferState) :
    (find_module env s).2 = none ∧
    (find_module env s).1.working = s.working ∧
    (∀ msg m n o, s.working = false → env.foundSpec = some m →
      m.loaderIsSourceFileLoader = true → m.name = some n →
      m.origin = some o → env.reportError = some msg →
      (find_module env s).1.logged =
        s.logged ++ ["jurigged: Error processing spec " ++ n]) := by
  by_cases hw : s.working
  · refine ⟨by simp [find_module, hw], by simp [find_module, hw], ?_⟩
    intro msg m n o hw2
    rw [hw2] at hw
    exact absurd hw (by simp)
  · rcases hfs : env.foundSpec with _ | m
    · refine ⟨by simp [find_module, hw, hfs], by simp [find_module, hw, hfs],
        ?_⟩
      intro msg m n o _ hfs2
      exact absurd hfs2 (by simp)
    · rcases m with ⟨b, nm, og⟩
      cases b <;> rcases nm with _ | n0 <;> rcases og with _ | o0 <;>
        rcases hre : env.reportError with _ | msg0 <;>
        refine ⟨by simp [find_module, hw, hfs, hre],
          by simp [find_module, hw, hfs, hre], ?_⟩ <;>
        · intro msg m n o _ hfs2 hldr hn ho hre2
          cases hfs2
          simp_all [find_module]

/-- C3, witness: the theorem applied to a resolution that finds a
source-backed spec and whose reporting callback raises. -/
theorem C3_find_module_transparent_witness :
    (find_module senvRaise snifferIdle).2 = none ∧
    (find_module senvRaise snifferIdle).1.working = snifferIdle.working ∧
    (find_module senvRaise snifferIdle).1.logged =
      snifferIdle.logged ++ ["jurigged: Error processing spec " ++ "c"] :=
  ⟨(C3_find_module_transparent senvRaise snifferIdle).1,
   (C3_find_module_transparent senvRaise snifferIdle).2.1,
   (C3_find_module_transparent senvRaise snifferIdle).2.2 "boom" specC "c"
     "c.py" rfl rfl rfl rfl rfl rfl⟩

/-- C4: a nested invocation (reentrancy flag already set) returns no opinion
with the whole sniffer state untouched — no resolution performed, no report
issued — and any single invocation grows the report history by at most one
entry, so a top-level resolution triggers at most one report even when it
recursively re-enters the sniffer. -/
theorem C4_reentrancy_guard (env : SnifferEnv) (s : SnifferState) :
    (s.working = true → find_module env s = (s, none)) ∧
    (find_module env s).1.reports.length ≤ s.reports.length + 1 := by
  constructor
  · intro hw
    simp [find_module, hw]
  · by_cases hw : s.working
    · simp [find_module, hw]
    · rcases hfs : env.foundSpec with _ | m
      · simp [find_module, hw, hfs]
      · rcases m with ⟨b, nm, og⟩
        cases b <;> rcases nm with _ | n0 <;> rcases og with _ | o0 <;>
          rcases hre : env.reportError with _ | msg0 <;>
          simp [find_module, hw, hfs, hre]

/-- C4, witness: the theorem applied to a sniffer invoked while already
resolving. -/
theorem C4_reentrancy_guard_witness :
    find_module senvRaise snifferBusy = (snifferBusy, none) ∧
    (find_module senvRaise snifferBusy).1.reports.length ≤
      snifferBusy.reports.length + 1 :=
  ⟨(C4_reentrancy_guard senvRaise snifferBusy).1 rfl,
   (C4_reentrancy_guard senvRaise snifferBusy).2⟩

/-- C5, counterexample: `prepare("m", "p.py")` has been called (it completed,
as a no-op, because `"p.py"` was already precached under the since-unloaded
module `m0`) and module `m` is loaded, yet `get("p.py")` returns absent —
refuting the claim for arbitrary prior call histories. -/
theorem C5_counterexample :
    prepare env1 "m" "p.py" sPreStale = .ok sPreStale ∧
    (env1.modules.lookup "m").isSome = true ∧
    (get env1 "p.py" sPreStale).2 = none :=
  ⟨rfl, rfl, rfl⟩

/-- C5, amended: if path `p`'s precache entry names module `m` (as it does
after a `prepare(m, p)` that actually stored the snapshot) and `m` is still
loaded, then `get(p)` returns a non-absent metadata entity, and every later
`get(p)` — after any further operation sequence, under any later environment
— returns that identical entity, never a rebuilt one. -/
theorem C5_referential_stability (env : Env) (s : RegState)
    (p m src : String) (mt : Nat)
    (hpre : s.precache.lookup p = some (m, src, mt))
    (hmod : (env.modules.lookup m).isSome = true) :
    ((get env p s).2).isSome = true ∧
    ∀ (l : List (Env × Op)) (env2 : Env),
      (get env2 p (runOps l (get env p s).1)).2 = (get env p s).2 := by
  have hsome : ((get env p s).2).isSome = true := by
    rcases hc : s.cache.lookup p with _ | cf
    · obtain ⟨M, hM⟩ := Option.isSome_iff_exists.mp hmod
      simp [get, hc, hpre, hM]
    · simp [get, hc]
  refine ⟨hsome, ?_⟩
  intro l env2
  obtain ⟨cf, hcf⟩ := Option.isSome_iff_exists.mp hsome
  rw [hcf]
  exact get_stable env p s cf hcf l env2

/-- C5, witness: the amended theorem applied to the freshly prepared state;
stability holds even across a later environment in which module `m` has been
unloaded. -/
theorem C5_referential_stability_witness :
    ((get env1 "p.py" sPre).2).isSome = true ∧
    (get envUnloaded "p.py"
        (runOps [(env1, Op.findOp "p.py" 3)] (get env1 "p.py" sPre).1)).2 =
      (get env1 "p.py" sPre).2 :=
  ⟨(C5_referential_stability env1 sPre "p.py" "m" "def f(): pass" 10
      rfl rfl).1,
   (C5_referential_stability env1 sPre "p.py" "m" "def f(): pass" 10
      rfl rfl).2 [(env1, Op.findOp "p.py" 3)] envUnloaded⟩

/-- C6: `prepare` is idempotent per path — when the path is already in the
precache, or already in the cache, a call with any module name returns the
state completely unchanged (same snapshot, no new event); and only when the
path is absent from both tables does it read the file, store the entry and
emit exactly one precache event. -/
theorem C6_prepare_idempotent (env : Env) (m m2 p : String) (s : RegState) :
    (∀ e, s.precache.lookup p = some e → prepare env m2 p s = .ok s) ∧
    (∀ cf, s.cache.lookup p = some cf → prepare env m2 p s = .ok s) ∧
    (s.precache.lookup p = none → s.cache.lookup p = none →
      ∀ text mtime, env.fs p = some (text, mtime) →
        prepare env m p s = .ok
          { s with
            precache := (p, (m, text, mtime)) :: s.precache
            precacheEvents := s.precacheEvents ++ [(m, p)]
            reads := s.reads + 1 }) := by
  refine ⟨?_, ?_, ?_⟩
  · intro e he
    simp [prepare, he]
  · intro cf hc
    simp [prepare, hc]
  · intro h1 h2 text mtime hfs
    simp [prepare, h1, h2, hfs]

/-- C6, witness: re-preparing `"p.py"` under another module name is a no-op,
and the first `prepare` on the empty registry stores the snapshot and emits
one precache event. -/
theorem C6_prepare_idempotent_witness :
    prepare env1 "m2" "p.py" sPre = .ok sPre ∧
    prepare env1 "m" "p.py" initState = .ok
      { initState with
        precache := [("p.py", ("m", "def f(): pass", 10))]
        precacheEvents := [("m", "p.py")]
        reads := 1 } :=
  ⟨(C6_prepare_idempotent env1 "m" "m2" "p.py" sPre).1
      ("m", "def f(): pass", 10) rfl,
   (C6_prepare_idempotent env1 "m" "m2" "p.py" initState).2.2 rfl rfl
      "def f(): pass" 10 rfl⟩

/-- C7: a precache entry whose module is no longer loaded makes `get` return
absent with the registry state completely untouched — no metadata entity is
built, no table is modified, no promotion occurs. -/
theorem C7_stale_module (env : Env) (p m src : String) (mt : Nat)
    (s : RegState) (hpre : s.precache.lookup p = some (m, src, mt))
    (hcache : s.cache.lookup p = none)
    (hmod : env.modules.lookup m = none) :
    get env p s = (s, none) := by
  simp [get, hpre, hcache, hmod]

/-- C7, witness: the theorem applied to the prepared state after module `m`
has been unloaded. -/
theorem C7_stale_module_witness :
    get envUnloaded "p.py" sPre = (sPre, none) :=
  C7_stale_module envUnloaded "p.py" "m" "def f(): pass" 10 sPre rfl rfl rfl

/-- C8: for a path absent from both tables, `get` returns absent and `find`
returns the absent pair at every line, with the state unchanged; for a known
path whose metadata binds no definition at line `L`, `find` returns the
metadata paired with absent. Neither case is an error. -/
theorem C8_total_lookup (env : Env) (s : RegState) (p : String) (L : Nat) :
    (s.precache.lookup p = none → s.cache.lookup p = none →
      get env p s = (s, none) ∧ find env p L s = (s, (none, none))) ∧
    (∀ cf, (get env p s).2 = some cf → cf.defnmap.lookup L = none →
      (find env p L s).2 = (some cf, none)) := by
  constructor
  · intro h1 h2
    constructor
    · simp [get, h1, h2]
    · simp [find, get, h1, h2]
  · intro cf hcf hL
    rcases hg : get env p s with ⟨s1, r⟩
    rw [hg] at hcf
    simp only at hcf
    subst hcf
    simp [find, hg, hL]

/-- C8, witness: the theorem applied to a never-seen path on the empty
registry and to `"p.py"` at the unbound line 5. -/
theorem C8_total_lookup_witness :
    (get env1 "zz.py" initState = (initState, none) ∧
      find env1 "zz.py" 7 initState = (initState, (none, none))) ∧
    (find env1 "p.py" 5 sPre).2 = (some cfP, none) :=
  ⟨(C8_total_lookup env1 initState "zz.py" 7).1 rfl rfl,
   (C8_total_lookup env1 sPre "p.py" 5).2 cfP rfl rfl⟩

/-- C9: `find_function` on a non-callable argument returns the absent pair
and leaves the whole registry state — precache, cache, both event histories,
and the read count — exactly as it was. -/
theorem C9_noncallable_no_effect (env : Env) (v : PyValue) (s : RegState)
    (h : isCallable v = false) :
    find_function env v s = .ok (s, (none, none)) := by
  cases v with
  | function m f l => simp [isCallable] at h
  | builtinFunction => simp [isCallable] at h
  | classObj => simp [isCallable] at h
  | boundMethod => simp [isCallable] at h
  | callableInstance => simp [isCallable] at h
  | nonCallable => rfl

/-- C9, witness: the theorem applied to a non-callable value on the prepared
state. -/
theorem C9_noncallable_no_effect_witness :
    find_function env1 PyValue.nonCallable sPre = .ok (sPre, (none, none)) :=
  C9_noncallable_no_effect env1 PyValue.nonCallable sPre rfl

/-- C10: the guard of `find_function` is by concrete type, not callability —
every argument that is not a plain function object, including callables such
as classes, builtins, bound methods and instances with a call operator, gets
the absent pair back with the registry state untouched: no file read, no
table mutation, no event emission. -/
theorem C10_type_guard (env : Env) (v : PyValue) (s : RegState)
    (h : isFunctionType v = false) :
    find_function env v s = .ok (s, (none, none)) := by
  cases v with
  | function m f l => simp [isFunctionType] at h
  | builtinFunction => rfl
  | classObj => rfl
  | boundMethod => rfl
  | callableInstance => rfl
  | nonCallable => rfl

/-- C10, witness: the theorem applied to a class object — a callable that is
not a plain function — on the prepared state. -/
theorem C10_type_guard_witness :
    find_function env1 PyValue.classObj sPre = .ok (sPre, (none, none)) ∧
    isCallable PyValue.classObj = true :=
  ⟨C10_type_guard env1 PyValue.classObj sPre rfl, rfl⟩

end Jurigged
